import Mathlib

/-!
Verification of the Math Prodigy Bot core logic
(`src/math-prodigy-bot.py`).

The repository's deterministic core consists of

* `convert_latex_to_markdown_format` (lines 111-122): two regex
  substitution passes turning backslash-bracket LaTeX delimiters into
  dollar-style Markdown math delimiters:
  - block pass, `re.sub(r"\\\[(.*?)\\\]", r"$$\1$$", text, flags=re.DOTALL)`
  - inline pass, `re.sub(r"\\\((.*?)\\\)", r"$\1$", text)` (no DOTALL,
    so `.` does not match a newline);
* the prompt construction inside `generate_solution` (lines 96-104);
* the solve-button handler inside `main` (lines 159-170), which checks
  the API key, then the uploaded image, and on success stores the
  normalized solution together with the uploaded image in
  `st.session_state`.

Strings are modelled as Lean `String`s; the character-level scanning of
Python's `re.sub` with a lazy `(.*?)` group between two-character
delimiters is modelled over `List Char`.  `re.sub` scans left to right,
at each position first trying to match the opening delimiter; a lazy
group then extends character by character until the closing delimiter
matches, i.e. the captured body ends at the first occurrence of the
closing two-character sequence (with `.` refusing newlines unless
DOTALL).  On a successful match the replacement is emitted and scanning
resumes after the match; on failure scanning advances one character.
-/

set_option maxRecDepth 40000

namespace MathProdigyBot

/-- Search for the first occurrence of the two-character closing
delimiter `'\\', cl` in the input, as the lazy group `(.*?)` followed by
the literal closing delimiter does: at each position the closing
delimiter is tried first, otherwise one character is consumed by `.`
(which refuses `'\n'` when `nl = false`, i.e. without `re.DOTALL`).
Returns the captured body and the remainder after the closing
delimiter, or `none` when the pattern cannot match at this opening. -/
def findClose (cl : Char) (nl : Bool) : List Char → Option (List Char × List Char)
  | [] => none
  | a :: rest =>
    if a = '\\' ∧ rest.head? = some cl then some ([], rest.tail)
    else if nl = false ∧ a = '\n' then none
    else
      match findClose cl nl rest with
      | some (body, after) => some (a :: body, after)
      | none => none

/-- One `re.sub` pass with pattern `\\ op (.*?) \\ cl` and replacement
`dollar ++ body ++ dollar`, scanning left to right.  The `fuel`
argument is a structural-termination device only: it bounds the number
of scanning steps and is always called with `fuel = length of the
input`, which is sufficient because every step consumes at least one
input character. -/
def substAux (op cl : Char) (nl : Bool) (dollar : List Char) : Nat → List Char → List Char
  | 0, l => l
  | _ + 1, [] => []
  | _ + 1, [a] => [a]
  | fuel + 1, a :: b :: rest =>
    if a = '\\' ∧ b = op then
      match findClose cl nl rest with
      | some (body, after) =>
          dollar ++ body ++ dollar ++ substAux op cl nl dollar fuel after
      | none => a :: substAux op cl nl dollar fuel (b :: rest)
    else a :: substAux op cl nl dollar fuel (b :: rest)

/-- One full substitution pass over a character list. -/
def substPass (op cl : Char) (nl : Bool) (dollar : List Char) (l : List Char) : List Char :=
  substAux op cl nl dollar l.length l

/-- Line 117: `text = re.sub(r"\\\[(.*?)\\\]", r"$$\1$$", text, flags=re.DOTALL)`. -/
def blockPass (l : List Char) : List Char :=
  substPass '[' ']' true ['$', '$'] l

/-- Line 120: `text = re.sub(r"\\\((.*?)\\\)", r"$\1$", text)`. -/
def inlinePass (l : List Char) : List Char :=
  substPass '(' ')' false ['$'] l

/-- Lines 111-122: the delimiter normalizer
`convert_latex_to_markdown_format`, block pass first, then inline
pass. -/
def convert_latex_to_markdown_format (text : String) : String :=
  ⟨inlinePass (blockPass text.data)⟩

/-- `hasPair p q l` holds when the two-character sequence `p, q` occurs
(as adjacent characters) somewhere in `l`; used to state "contains no
occurrence of a backslash-bracket delimiter". -/
def hasPair (p q : Char) : List Char → Bool
  | [] => false
  | [_] => false
  | a :: b :: rest => (a == p && b == q) || hasPair p q (b :: rest)

/-- `containsSub pat l` holds when `pat` occurs as a contiguous
substring of `l`. -/
def containsSub (pat : List Char) : List Char → Bool
  | [] => pat.isEmpty
  | a :: rest => pat.isPrefixOf (a :: rest) || containsSub pat rest

/-- The three labels offered by the explanation-detail select box
(lines 39-42). -/
def explanationDetailOptions : List String :=
  ["Brief overview", "Standard step-by-step", "In-depth explanation with reasoning"]

/-- Python's `str.lower()` restricted to the ASCII range, as a
character-by-character map (the select-box labels are ASCII). -/
def strToLower (s : String) : String :=
  ⟨s.data.map Char.toLower⟩

/-- Lines 96-104: the f-string prompt built inside `generate_solution`,
after the final `.strip()`.  `explanation_detail` is interpolated
lowercased; the branch phrase is `"similar problems for practice"` when
`practice_set == "Yes"` and `"only the solution"` otherwise. -/
def generate_solution_prompt (explanation_detail practice_set : String) : String :=
  "A user has uploaded a screenshot of a math problem.\n\n    Please solve it and provide a **"
    ++ strToLower explanation_detail
    ++ "** explanation, as per the defined explanation styles.\n\n    The user has requested **"
    ++ (if practice_set = "Yes" then "similar problems for practice" else "only the solution")
    ++ "**.\n\n    Structure your response clearly and format all math using Markdown and LaTeX."

/-- The session-state keys the core touches: `openai_api_key` (set by
the sidebar, line 18), and `solution` / `image` (set by the solve
handler, lines 169-170).  `Img` is the opaque type of uploaded image
references.  Each field is `none` when the corresponding
`st.session_state` attribute has never been set. -/
structure SessionState (Img : Type) where
  openai_api_key : Option String
  solution : Option String
  image : Option Img
deriving DecidableEq, Repr

/-- A fresh Streamlit session: no key, no solution, no image. -/
def emptySession (Img : Type) : SessionState Img :=
  ⟨none, none, none⟩

/-- The dictionary returned by `render_solution_preferences`
(lines 50-54). -/
structure SolutionPreferences (Img : Type) where
  uploaded_image : Option Img
  explanation_detail : String
  practice_set : String
deriving DecidableEq, Repr

/-- Validation errors surfaced by the solve handler (lines 161, 163). -/
inductive SolveError where
  | missingCredential
  | missingInput
deriving DecidableEq, Repr

/-- Outcome of one press of the "Generate Math Solution" button. -/
inductive SolveOutcome where
  | rejected (e : SolveError)
  | stored
deriving DecidableEq, Repr

/-- Lines 159-170 of `main`: the handler run when the solve button is
pressed.  `stubResponse` stands for the text returned by the external
model call (`generate_solution`, stubbed).  Returns the new session
state, the outcome, and the number of external model calls made. -/
def mainSolveStep {Img : Type} (stubResponse : String)
    (prefs : SolutionPreferences Img) (st : SessionState Img) :
    SessionState Img × SolveOutcome × Nat :=
  if st.openai_api_key.isNone then
    (st, .rejected .missingCredential, 0)
  else if prefs.uploaded_image.isNone then
    (st, .rejected .missingInput, 0)
  else
    ({ st with
        solution := some (convert_latex_to_markdown_format stubResponse),
        image := prefs.uploaded_image },
      .stored, 1)

/-- Session-level events: entering an API key in the sidebar
(lines 12-18: the key is stored only when the entered string is
non-empty, since an empty string is falsy in Python) and pressing the
solve button with given preferences and stubbed model response. -/
inductive Event (Img : Type) where
  | enterApiKey (k : String)
  | solve (stubResponse : String) (prefs : SolutionPreferences Img)

/-- Effect of one event on the session state. -/
def stepEvent {Img : Type} : Event Img → SessionState Img → SessionState Img
  | .enterApiKey k, st =>
      if k ≠ "" then { st with openai_api_key := some k } else st
  | .solve resp prefs, st => (mainSolveStep resp prefs st).1

/-- Run a sequence of events from a given session state. -/
def runEvents {Img : Type} (evs : List (Event Img)) (st : SessionState Img) : SessionState Img :=
  evs.foldl (fun s e => stepEvent e s) st

/-! ## Auxiliary lemmas about the normalizer -/

theorem string_data_append (s t : String) : (s ++ t).data = s.data ++ t.data := rfl

theorem string_eq_of_data {s t : String} (h : s.data = t.data) : s = t := by
  cases s; cases t; exact congrArg String.mk h

/-- A successful `findClose` decomposes its input: the input is the
captured body, then the closing delimiter, then the remainder. -/
theorem findClose_some_eq (cl : Char) (nl : Bool) :
    ∀ l body after, findClose cl nl l = some (body, after) →
      l = body ++ '\\' :: cl :: after := by
  intro l
  induction l with
  | nil => intro body after h; simp [findClose] at h
  | cons a rest ih =>
    intro body after h
    rw [findClose] at h
    split at h
    · rename_i hsplit
      obtain ⟨ha, hhead⟩ := hsplit
      simp only [Option.some.injEq, Prod.mk.injEq] at h
      obtain ⟨hbody, hafter⟩ := h
      subst ha hbody
      cases rest with
      | nil => simp at hhead
      | cons x rest' =>
        simp only [List.head?_cons, Option.some.injEq] at hhead
        simp only [List.tail_cons] at hafter
        subst hhead hafter
        rfl
    · split at h
      · simp at h
      · split at h
        · rename_i body' after' hrec
          simp only [Option.some.injEq, Prod.mk.injEq] at h
          obtain ⟨hbody, hafter⟩ := h
          subst hbody hafter
          have := ih body' after' hrec
          simp [this]
        · simp at h

theorem substAux_nil (op cl : Char) (nl : Bool) (dollar : List Char) :
    ∀ fuel, substAux op cl nl dollar fuel [] = [] := by
  intro fuel
  cases fuel <;> rfl

theorem hasPair_tail {p q a : Char} {l : List Char}
    (h : hasPair p q (a :: l) = false) : hasPair p q l = false := by
  cases l with
  | nil => rfl
  | cons b rest =>
    rw [hasPair] at h
    exact (Bool.or_eq_false_iff.mp h).2

theorem hasPair_cons_ne {p q a : Char} (l : List Char) (ha : a ≠ p) :
    hasPair p q (a :: l) = hasPair p q l := by
  cases l with
  | nil => simp [hasPair]
  | cons b rest =>
    rw [hasPair]
    simp [ha]

/-- If the pair `p, q` occurs neither inside `l` nor inside `r` nor
straddling the boundary, it does not occur in `l ++ r`. -/
theorem hasPair_append_false {p q : Char} :
    ∀ (l r : List Char), hasPair p q l = false → hasPair p q r = false →
      ¬(l.getLast? = some p ∧ r.head? = some q) →
      hasPair p q (l ++ r) = false := by
  intro l
  induction l with
  | nil => intro r _ hr _; simpa using hr
  | cons a l' ih =>
    intro r hl hr hb
    cases l' with
    | nil =>
      cases r with
      | nil => rfl
      | cons x r' =>
        rw [List.cons_append, List.nil_append, hasPair]
        have hx : ¬(a = p ∧ x = q) := by
          rintro ⟨rfl, rfl⟩
          exact hb ⟨rfl, rfl⟩
        rw [Bool.or_eq_false_iff]
        constructor
        · simp only [Bool.and_eq_false_iff, beq_eq_false_iff_ne, ne_eq]
          by_cases hap : a = p
          · right; intro hxq; exact hx ⟨hap, hxq⟩
          · left; exact hap
        · exact hr
    | cons b l'' =>
      rw [List.cons_append, List.cons_append, hasPair]
      rw [Bool.or_eq_false_iff]
      constructor
      · rw [hasPair] at hl
        exact (Bool.or_eq_false_iff.mp hl).1
      · rw [← List.cons_append]
        refine ih r (hasPair_tail hl) hr ?_
        rintro ⟨hlast, hhead⟩
        refine hb ⟨?_, hhead⟩
        rw [List.getLast?_cons_cons]
        exact hlast

/-- If the opening delimiter `\\ op` occurs nowhere in the input, the
substitution pass is the identity (any fuel). -/
theorem substAux_id (op cl : Char) (nl : Bool) (dollar : List Char) :
    ∀ (fuel : Nat) (l : List Char), hasPair '\\' op l = false →
      substAux op cl nl dollar fuel l = l := by
  intro fuel
  induction fuel with
  | zero => intro l _; rfl
  | succ n ih =>
    intro l h
    cases l with
    | nil => rfl
    | cons a l' =>
      cases l' with
      | nil => rfl
      | cons b rest =>
        have hcond : ¬(a = '\\' ∧ b = op) := by
          rintro ⟨rfl, rfl⟩
          rw [hasPair] at h
          simp at h
        rw [substAux, if_neg hcond, ih (b :: rest) (hasPair_tail h)]

/-- When the body before the closing delimiter contains no occurrence
of the closing delimiter (and no newline, in single-line mode), the
lazy search finds exactly that closing delimiter. -/
theorem findClose_append (cl : Char) (nl : Bool) (hcl : cl ≠ '\\') :
    ∀ (body rest : List Char), hasPair '\\' cl body = false →
      (nl = false → '\n' ∉ body) →
      findClose cl nl (body ++ '\\' :: cl :: rest) = some (body, rest) := by
  intro body
  induction body with
  | nil =>
    intro rest _ _
    rw [List.nil_append, findClose]
    rw [if_pos ⟨rfl, by simp⟩]
    simp
  | cons c body' ih =>
    intro rest hp hn
    rw [List.cons_append, findClose]
    have hcond1 : ¬(c = '\\' ∧ (body' ++ '\\' :: cl :: rest).head? = some cl) := by
      rintro ⟨rfl, hhead⟩
      cases body' with
      | nil =>
        simp only [List.nil_append, List.head?_cons, Option.some.injEq] at hhead
        exact hcl hhead.symm
      | cons d body'' =>
        simp only [List.cons_append, List.head?_cons, Option.some.injEq] at hhead
        subst hhead
        rw [hasPair] at hp
        simp at hp
    rw [if_neg hcond1]
    have hcond2 : ¬(nl = false ∧ c = '\n') := by
      rintro ⟨hnl, rfl⟩
      exact (hn hnl) (List.mem_cons_self _ _)
    rw [if_neg hcond2]
    rw [ih rest (hasPair_tail hp) (fun h hm => hn h (List.mem_cons_of_mem _ hm))]

/-- A substitution pass on input opening with a full span rewrites the
span and continues after it. -/
theorem substAux_open_match (op cl : Char) (nl : Bool) (dollar : List Char)
    (hcl : cl ≠ '\\') (fuel : Nat) (body rest : List Char)
    (hp : hasPair '\\' cl body = false) (hn : nl = false → '\n' ∉ body) :
    substAux op cl nl dollar (fuel + 1) ('\\' :: op :: (body ++ '\\' :: cl :: rest)) =
      dollar ++ body ++ dollar ++ substAux op cl nl dollar fuel rest := by
  rw [substAux, if_pos ⟨rfl, rfl⟩, findClose_append cl nl hcl body rest hp hn]

/-- A substitution pass never lengthens its input when the replacement
delimiters are at most two characters each (the consumed delimiters
`\\ op`, `\\ cl` are four characters). -/
theorem substAux_length_le (op cl : Char) (nl : Bool) (dollar : List Char)
    (hd : dollar.length ≤ 2) :
    ∀ (fuel : Nat) (l : List Char), (substAux op cl nl dollar fuel l).length ≤ l.length := by
  intro fuel
  induction fuel with
  | zero => intro l; exact Nat.le_refl _
  | succ n ih =>
    intro l
    cases l with
    | nil => exact Nat.le_refl _
    | cons a l' =>
      cases l' with
      | nil => exact Nat.le_refl _
      | cons b rest =>
        rw [substAux]
        split
        · split
          · rename_i body after hfc
            have hdec := findClose_some_eq cl nl rest body after hfc
            have hrec := ih after
            have hlen : rest.length = body.length + after.length + 2 := by
              rw [hdec]
              simp only [List.length_append, List.length_cons]
              omega
            simp only [List.length_append, List.length_cons]
            omega
          · have hrec := ih (b :: rest)
            simp only [List.length_cons] at hrec ⊢
            omega
        · have hrec := ih (b :: rest)
          simp only [List.length_cons] at hrec ⊢
          omega

/-- The normalizer is the identity on text containing neither a `\\ [`
nor a `\\ (` opening delimiter. -/
theorem convert_eq_self_of_no_open (t : String)
    (hb : hasPair '\\' '[' t.data = false)
    (hi : hasPair '\\' '(' t.data = false) :
    convert_latex_to_markdown_format t = t := by
  have h1 : blockPass t.data = t.data :=
    substAux_id '[' ']' true ['$', '$'] t.data.length t.data hb
  apply string_eq_of_data
  show inlinePass (blockPass t.data) = t.data
  rw [h1]
  exact substAux_id '(' ')' false ['$'] t.data.length t.data hi

/-! ## Auxiliary lemmas about the orchestrator -/

/-- Each session event preserves the pairing of `solution` and
`image`. -/
theorem stepEvent_preserves_paired {Img : Type} (e : Event Img) (st : SessionState Img)
    (h : st.solution.isSome = st.image.isSome) :
    (stepEvent e st).solution.isSome = (stepEvent e st).image.isSome := by
  cases e with
  | enterApiKey k =>
    rw [stepEvent]
    split
    · exact h
    · exact h
  | solve resp prefs =>
    show (mainSolveStep resp prefs st).1.solution.isSome =
      (mainSolveStep resp prefs st).1.image.isSome
    rw [mainSolveStep]
    split
    · exact h
    · split
      · exact h
      · rename_i hkey himg
        cases hup : prefs.uploaded_image with
        | none => rw [hup] at himg; simp at himg
        | some i => simp [hup]

/-- Running any event sequence preserves the pairing of `solution` and
`image`. -/
theorem runEvents_paired {Img : Type} (evs : List (Event Img)) :
    ∀ st : SessionState Img, st.solution.isSome = st.image.isSome →
      (runEvents evs st).solution.isSome = (runEvents evs st).image.isSome := by
  induction evs with
  | nil => intro st h; exact h
  | cons e evs ih =>
    intro st h
    exact ih (stepEvent e st) (stepEvent_preserves_paired e st h)

/-! ## Claims -/

/-- Claim C1: for every solve trigger, if no API key has been supplied
the request is rejected with `missingCredential` and the session state
(in particular `solution` and `image`) is unchanged; if a key is
present but no image was uploaded, the request is rejected with
`missingInput`; in both cases zero external model calls are made. -/
theorem C1_validation_rejections (Img : Type) (resp : String)
    (prefs : SolutionPreferences Img) (st : SessionState Img) :
    (st.openai_api_key = none →
      mainSolveStep resp prefs st = (st, .rejected .missingCredential, 0)) ∧
    (st.openai_api_key.isSome = true → prefs.uploaded_image = none →
      mainSolveStep resp prefs st = (st, .rejected .missingInput, 0)) := by
  constructor
  · intro hk
    rw [mainSolveStep, if_pos (by rw [hk]; rfl)]
  · intro hk himg
    rw [mainSolveStep,
      if_neg (by rw [Option.isNone_iff_eq_none]; intro h; rw [h] at hk; simp at hk),
      if_pos (by rw [himg]; rfl)]

/-- Witness for C1: concrete rejected requests of both kinds. -/
theorem C1_validation_rejections_witness :
    @mainSolveStep Nat "raw text" ⟨some 7, "Brief overview", "No"⟩
        (emptySession Nat) =
      (emptySession Nat, .rejected .missingCredential, 0) ∧
    @mainSolveStep Nat "raw text" ⟨none, "Brief overview", "No"⟩
        ⟨some "sk-key", none, none⟩ =
      (⟨some "sk-key", none, none⟩, .rejected .missingInput, 0) :=
  ⟨(C1_validation_rejections Nat "raw text" _ _).1 rfl,
   (C1_validation_rejections Nat "raw text" _ _).2 rfl rfl⟩

/-- Claim C2: with a credential and an image present and the stubbed
external call returning `"Solve \\(x+1\\)=2"`, the handler stores the
normalized text `"Solve $x+1$=2"` as `solution` and the original
uploaded image as `image`, making exactly one external call. -/
theorem C2_success_stores (Img : Type) (prefs : SolutionPreferences Img)
    (st : SessionState Img) (k : String) (img : Img)
    (hk : st.openai_api_key = some k) (himg : prefs.uploaded_image = some img) :
    mainSolveStep "Solve \\(x+1\\)=2" prefs st =
      ({ st with solution := some "Solve $x+1$=2", image := some img }, .stored, 1) := by
  rw [mainSolveStep, if_neg (by rw [hk]; simp), if_neg (by rw [himg]; simp), himg]
  have hconv : convert_latex_to_markdown_format "Solve \\(x+1\\)=2" = "Solve $x+1$=2" := by
    decide
  rw [hconv]

/-- Witness for C2: a concrete successful solve. -/
theorem C2_success_stores_witness :
    @mainSolveStep Nat "Solve \\(x+1\\)=2" ⟨some 3, "Brief overview", "No"⟩
        ⟨some "sk-key", none, none⟩ =
      (⟨some "sk-key", some "Solve $x+1$=2", some 3⟩, .stored, 1) :=
  C2_success_stores Nat _ _ "sk-key" 3 rfl rfl

/-- Claim C7: in every session state reachable from the empty session
by any sequence of events (API-key entries and solve requests, accepted
or rejected), `solution` is present exactly when `image` is present. -/
theorem C7_solution_image_paired (Img : Type) (evs : List (Event Img)) :
    (runEvents evs (emptySession Img)).solution.isSome =
      (runEvents evs (emptySession Img)).image.isSome :=
  runEvents_paired evs (emptySession Img) rfl

/-- Claim C9: when both the API key and the uploaded image are absent,
the credential check fires first, so the request is rejected with
`missingCredential`. -/
theorem C9_credential_checked_first (Img : Type) (resp : String)
    (prefs : SolutionPreferences Img) (st : SessionState Img)
    (hk : st.openai_api_key = none) (himg : prefs.uploaded_image = none) :
    mainSolveStep resp prefs st = (st, .rejected .missingCredential, 0) := by
  rw [mainSolveStep, if_pos (by rw [hk]; rfl)]

/-- Witness for C9: the empty session with no uploaded image. -/
theorem C9_credential_checked_first_witness :
    @mainSolveStep Nat "raw text" ⟨none, "Standard step-by-step", "Yes"⟩
        (emptySession Nat) =
      (emptySession Nat, .rejected .missingCredential, 0) :=
  C9_credential_checked_first Nat "raw text" _ _ rfl rfl

/-- Claim C3: the normalizer is the identity on every string containing
no backslash-bracket delimiter (none of the two-character sequences
`\\ [`, `\\ ]`, `\\ (`, `\\ )`). -/
theorem C3_identity_without_delimiters (t : String)
    (h1 : hasPair '\\' '[' t.data = false) (h2 : hasPair '\\' ']' t.data = false)
    (h3 : hasPair '\\' '(' t.data = false) (h4 : hasPair '\\' ')' t.data = false) :
    convert_latex_to_markdown_format t = t :=
  convert_eq_self_of_no_open t h1 h3

/-- Witness for C3: a concrete delimiter-free string. -/
theorem C3_identity_without_delimiters_witness :
    convert_latex_to_markdown_format "Solve x+1=2, answer $x=1$." = "Solve x+1=2, answer $x=1$." :=
  C3_identity_without_delimiters _ (by decide) (by decide) (by decide) (by decide)

/-- Claim C10: the normalizer never lengthens its input: block
replacements preserve length and inline replacements shorten by two. -/
theorem C10_never_lengthens (t : String) :
    (convert_latex_to_markdown_format t).length ≤ t.length := by
  have h1 := substAux_length_le '[' ']' true ['$', '$'] (by decide) t.data.length t.data
  have h2 := substAux_length_le '(' ')' false ['$'] (by decide)
      (blockPass t.data).length (blockPass t.data)
  show (inlinePass (blockPass t.data)).length ≤ t.data.length
  exact Nat.le_trans h2 h1

/-- Counterexample to claim C6 as stated: the output of the normalizer
on `"\\(\\(\\(a\\)b\\)c\\)"` is `"$\\(\\(a$b\\)c\\)"`, a string in the
range of the normalizer on which the normalizer is not idempotent. -/
theorem C6_counterexample :
    convert_latex_to_markdown_format "\\(\\(\\(a\\)b\\)c\\)" = "$\\(\\(a$b\\)c\\)" ∧
    convert_latex_to_markdown_format
        (convert_latex_to_markdown_format "$\\(\\(a$b\\)c\\)") ≠
      convert_latex_to_markdown_format "$\\(\\(a$b\\)c\\)" := by
  constructor
  · decide
  · decide

/-- Claim C6 (amended): the normalizer is idempotent on delimiter-free
input: if `t` contains no backslash-bracket delimiters then applying
the normalizer twice equals applying it once. -/
theorem C6_amended_idempotent (t : String)
    (h1 : hasPair '\\' '[' t.data = false) (h2 : hasPair '\\' ']' t.data = false)
    (h3 : hasPair '\\' '(' t.data = false) (h4 : hasPair '\\' ')' t.data = false) :
    convert_latex_to_markdown_format (convert_latex_to_markdown_format t) =
      convert_latex_to_markdown_format t := by
  have h := convert_eq_self_of_no_open t h1 h3
  rw [h, h]

/-- Witness for the amended C6. -/
theorem C6_amended_idempotent_witness :
    convert_latex_to_markdown_format
        (convert_latex_to_markdown_format "step 1: $x=1$") =
      convert_latex_to_markdown_format "step 1: $x=1$" :=
  C6_amended_idempotent _ (by decide) (by decide) (by decide) (by decide)

/-- Counterexample to claim C4 as stated: the body `"\\(x\\)"` contains
no `\\ ]`, yet normalizing `"\\[\\(x\\)\\]"` does not pass the body
through verbatim — the inline pass rewrites it. -/
theorem C4_counterexample :
    hasPair '\\' ']' "\\(x\\)".data = false ∧
    convert_latex_to_markdown_format ("\\[" ++ "\\(x\\)" ++ "\\]") ≠
      "$$" ++ "\\(x\\)" ++ "$$" := by
  constructor
  · decide
  · decide

/-- Claim C4 (amended): if `body` contains no `\\ ]` and additionally
no `\\ (`, then normalizing `"\\[" ++ body ++ "\\]"` yields
`"$$" ++ body ++ "$$"` with the body passed through verbatim. -/
theorem C4_amended_block_span (body : String)
    (h1 : hasPair '\\' ']' body.data = false)
    (h2 : hasPair '\\' '(' body.data = false) :
    convert_latex_to_markdown_format ("\\[" ++ body ++ "\\]") = "$$" ++ body ++ "$$" := by
  have e1 : "\\[".data = ['\\', '['] := rfl
  have e2 : "\\]".data = ['\\', ']'] := rfl
  have e3 : "$$".data = ['$', '$'] := rfl
  apply string_eq_of_data
  show inlinePass (blockPass ("\\[" ++ body ++ "\\]").data) = ("$$" ++ body ++ "$$").data
  have hdata : ("\\[" ++ body ++ "\\]").data =
      '\\' :: '[' :: (body.data ++ '\\' :: ']' :: []) := by
    rw [string_data_append, string_data_append, e1, e2]
    simp
  rw [hdata]
  have hblock : blockPass ('\\' :: '[' :: (body.data ++ '\\' :: ']' :: [])) =
      '$' :: '$' :: (body.data ++ '$' :: '$' :: []) := by
    show substAux '[' ']' true ['$', '$'] _ _ = _
    simp only [List.length_cons]
    rw [substAux_open_match '[' ']' true ['$', '$'] (by decide) _ body.data [] h1
      (by simp)]
    rw [substAux_nil]
    simp
  rw [hblock]
  have hinl : inlinePass ('$' :: '$' :: (body.data ++ '$' :: '$' :: [])) =
      '$' :: '$' :: (body.data ++ '$' :: '$' :: []) := by
    apply substAux_id
    rw [hasPair_cons_ne _ (by decide), hasPair_cons_ne _ (by decide)]
    exact hasPair_append_false body.data ['$', '$'] h2 (by decide)
      (by rintro ⟨_, hh⟩; exact absurd hh (by decide))
  rw [hinl, string_data_append, string_data_append, e3]
  simp

/-- Witness for the amended C4. -/
theorem C4_amended_block_span_witness :
    convert_latex_to_markdown_format ("\\[" ++ "x+1" ++ "\\]") = "$$" ++ "x+1" ++ "$$" :=
  C4_amended_block_span "x+1" (by decide) (by decide)

/-- Counterexample to claim C5 as stated: the body `"\\[x\\]"` contains
no `\\ )` and no newline, yet normalizing `"\\(\\[x\\]\\)"` does not
pass the body through verbatim — the block pass rewrites it. -/
theorem C5_counterexample :
    hasPair '\\' ')' "\\[x\\]".data = false ∧ '\n' ∉ "\\[x\\]".data ∧
    convert_latex_to_markdown_format ("\\(" ++ "\\[x\\]" ++ "\\)") ≠
      "$" ++ "\\[x\\]" ++ "$" := by
  refine ⟨by decide, by decide, by decide⟩

/-- Claim C5 (amended): if `body` contains no `\\ )`, no newline, and
additionally no `\\ [`, then normalizing `"\\(" ++ body ++ "\\)"`
yields `"$" ++ body ++ "$"` with the body passed through verbatim. -/
theorem C5_amended_inline_span (body : String)
    (h1 : hasPair '\\' ')' body.data = false)
    (h2 : '\n' ∉ body.data)
    (h3 : hasPair '\\' '[' body.data = false) :
    convert_latex_to_markdown_format ("\\(" ++ body ++ "\\)") = "$" ++ body ++ "$" := by
  have e1 : "\\(".data = ['\\', '('] := rfl
  have e2 : "\\)".data = ['\\', ')'] := rfl
  have e3 : "$".data = ['$'] := rfl
  apply string_eq_of_data
  show inlinePass (blockPass ("\\(" ++ body ++ "\\)").data) = ("$" ++ body ++ "$").data
  have hdata : ("\\(" ++ body ++ "\\)").data =
      '\\' :: '(' :: (body.data ++ '\\' :: ')' :: []) := by
    rw [string_data_append, string_data_append, e1, e2]
    simp
  rw [hdata]
  have hblock : blockPass ('\\' :: '(' :: (body.data ++ '\\' :: ')' :: [])) =
      '\\' :: '(' :: (body.data ++ '\\' :: ')' :: []) := by
    apply substAux_id
    rw [hasPair]
    rw [Bool.or_eq_false_iff]
    refine ⟨by decide, ?_⟩
    rw [hasPair_cons_ne _ (by decide)]
    exact hasPair_append_false body.data ['\\', ')'] h3 (by decide)
      (by rintro ⟨_, hh⟩; exact absurd hh (by decide))
  rw [hblock]
  have hinl : inlinePass ('\\' :: '(' :: (body.data ++ '\\' :: ')' :: [])) =
      '$' :: (body.data ++ '$' :: []) := by
    show substAux '(' ')' false ['$'] _ _ = _
    simp only [List.length_cons]
    rw [substAux_open_match '(' ')' false ['$'] (by decide) _ body.data [] h1
      (fun _ => h2)]
    rw [substAux_nil]
    simp
  rw [hinl, string_data_append, string_data_append, e3]
  simp

/-- Witness for the amended C5. -/
theorem C5_amended_inline_span_witness :
    convert_latex_to_markdown_format ("\\(" ++ "x+1" ++ "\\)") = "$" ++ "x+1" ++ "$" :=
  C5_amended_inline_span "x+1" (by decide) (by decide) (by decide)

/-- Counterexample to claim C8 as stated: with a valid detail label and
practice requested, the built prompt does not contain the substring
`"a set of similar problems for practice"` (the code's phrase lacks the
leading `"a set of"`). -/
theorem C8_counterexample :
    "Standard step-by-step" ∈ explanationDetailOptions ∧
    containsSub "a set of similar problems for practice".data
      (generate_solution_prompt "Standard step-by-step" "Yes").data = false := by
  refine ⟨by decide, by decide⟩

/-- Claim C8 (amended): for every detail label offered by the UI and
either practice choice, the prompt embeds the lowercased label; when
practice is not requested it contains `"only the solution"`, and when
practice is requested it contains `"similar problems for practice"`. -/
theorem C8_amended_prompt_contents (d p : String)
    (hd : d ∈ explanationDetailOptions) (hp : p = "Yes" ∨ p = "No") :
    containsSub (strToLower d).data (generate_solution_prompt d p).data = true ∧
    (p = "No" →
      containsSub "only the solution".data (generate_solution_prompt d p).data = true) ∧
    (p = "Yes" →
      containsSub "similar problems for practice".data
        (generate_solution_prompt d p).data = true) := by
  simp only [explanationDetailOptions, List.mem_cons, List.not_mem_nil, or_false] at hd
  rcases hd with rfl | rfl | rfl <;> rcases hp with rfl | rfl
  · exact ⟨by decide, fun h => absurd h (by decide), fun _ => by decide⟩
  · exact ⟨by decide, fun _ => by decide, fun h => absurd h (by decide)⟩
  · exact ⟨by decide, fun h => absurd h (by decide), fun _ => by decide⟩
  · exact ⟨by decide, fun _ => by decide, fun h => absurd h (by decide)⟩
  · exact ⟨by decide, fun h => absurd h (by decide), fun _ => by decide⟩
  · exact ⟨by decide, fun _ => by decide, fun h => absurd h (by decide)⟩

/-- Witness for the amended C8. -/
theorem C8_amended_prompt_contents_witness :
    containsSub (strToLower "Brief overview").data
      (generate_solution_prompt "Brief overview" "No").data = true ∧
    containsSub "only the solution".data
      (generate_solution_prompt "Brief overview" "No").data = true :=
  ⟨(C8_amended_prompt_contents "Brief overview" "No" (by decide) (Or.inr rfl)).1,
   (C8_amended_prompt_contents "Brief overview" "No" (by decide) (Or.inr rfl)).2.1 rfl⟩

end MathProdigyBot
